import Mathlib

/-!
Verification of the email-to-ticket script (src/api/run-python.py) against its
natural-language specification.  The Python source is shallowly embedded:
pure string manipulation becomes Lean functions on `String`/`List Char`,
the IMAP/HTTP side effects become an explicit environment (`Env`) describing
the results the external world returns, and the per-run control flow becomes
total Lean functions whose results record the observable effects
(webhook calls, messages marked read, log-level outcomes).
-/

namespace EmailTicket

/-- Python whitespace characters recognised by  str.strip()  and  str.split()
(ASCII subset: space, tab, newline, carriage return, vertical tab, form feed). -/
def pyIsSpace (c : Char) : Bool :=
  c == ' ' || c == '\t' || c == '\n' || c == '\r' || c == '\x0b' || c == '\x0c'

/-- Drop characters satisfying `p` from both ends of a list. -/
def dropWhileBoth (p : Char → Bool) (l : List Char) : List Char :=
  ((l.dropWhile p).reverse.dropWhile p).reverse

/-- Python  str.strip(chars) : remove all leading and trailing characters
satisfying `p`. -/
def pyStrip (p : Char → Bool) (s : String) : String :=
  ⟨dropWhileBoth p s.toList⟩

/-- Python  from_header.split('<')[0] : the prefix of the string before the
first '<' (the whole string when no '<' occurs). -/
def beforeLt (s : String) : String :=
  ⟨s.toList.takeWhile (fun c => c ≠ '<')⟩

/-- Split a character list at every character satisfying `p`, keeping empty
pieces (the behaviour of Python  str.split(sep)  for a one-character class). -/
def splitOnPred (p : Char → Bool) : List Char → List Char → List String
  | [], acc => [⟨acc.reverse⟩]
  | c :: cs, acc =>
    if p c then ⟨acc.reverse⟩ :: splitOnPred p cs []
    else splitOnPred p cs (c :: acc)

/-- Python  str.split()  with no argument: split on runs of whitespace and
drop the empty pieces. -/
def pySplitWs (s : String) : List String :=
  (splitOnPred pyIsSpace s.toList []).filter (fun t => t ≠ "")

/-- Embedding of `EmailTicketParser.parse_sender_name` (src/api/run-python.py
lines 85-96):  name_part = from_header.split('<')[0].strip().strip('"') ;
then split on whitespace; two or more tokens give (first, rest joined by
spaces), one token gives (token, ""), no token gives ("", ""). -/
def parse_sender_name (from_header : String) : String × String :=
  let name_part := pyStrip (fun c => c == '"') (pyStrip pyIsSpace (beforeLt from_header))
  match pySplitWs name_part with
  | [] => ("", "")
  | [x] => (x, "")
  | x :: rest => (x, " ".intercalate rest)

/-- The whitespace-separated tokens of the display-name part of a from
header: the text before the first '<', stripped of surrounding whitespace
and double quotes.  Used to state the spec's description of name splitting. -/
def displayTokens (from_header : String) : List String :=
  pySplitWs (pyStrip (fun c => c == '"') (pyStrip pyIsSpace (beforeLt from_header)))

/-- C6: for every from-header string the parsed name is (first token,
remaining tokens joined by spaces) of the display-name part, with
single-token or empty names yielding an empty last name; together with the
three concrete examples from the spec. -/
theorem name_splitting_spec :
    (∀ fh : String,
      parse_sender_name fh =
        ((displayTokens fh).headD "", " ".intercalate (displayTokens fh).tail)) ∧
    parse_sender_name "Jane Q. Public <jane@x.com>" = ("Jane", "Q. Public") ∧
    parse_sender_name "Solo <solo@x.com>" = ("Solo", "") ∧
    parse_sender_name "<noname@x.com>" = ("", "") := by
  refine ⟨?_, by decide, by decide, by decide⟩
  intro fh
  cases h : pySplitWs (pyStrip (fun c => c == '"') (pyStrip pyIsSpace (beforeLt fh))) with
  | nil => simp [parse_sender_name, displayTokens, h, String.intercalate]
  | cons x rest =>
    cases rest with
    | nil => simp [parse_sender_name, displayTokens, h, String.intercalate]
    | cons y ys => simp [parse_sender_name, displayTokens, h]

/-- A character set as exposed by Python's codec registry: an encoder from
strings to byte sequences and a strict decoder that fails (raises
UnicodeDecodeError, here `none`) on invalid input. -/
structure Charset where
  enc : String → List Nat
  dec : List Nat → Option String

/-- One fragment of the result of the external library function
`email.header.decode_header`: either a plain text run, or the decoded bytes
of an RFC 2047 encoded word together with its declared charset name. -/
inductive HeaderFragment where
  | text (s : String)
  | bytes (data : List Nat) (charset : Option String)

/-- The external Python standard library services the script calls:
`email.header.decode_header` (parsing a raw header into fragments) and the
codec registry (looking a charset up by name; unknown names raise, here
`none`).  Both are outside this repository, so they are parameters of the
embedding. -/
structure ExternalLib where
  decodeHeader : String → List HeaderFragment
  lookupCharset : String → Option Charset

/-- Decode one fragment as `decode_email_header` does:
`text.decode(encoding or 'utf-8') if isinstance(text, bytes) else text`. -/
def decodeFragment (lib : ExternalLib) : HeaderFragment → Option String
  | .text s => some s
  | .bytes d cs => (lib.lookupCharset (cs.getD "utf-8")).bind fun c => c.dec d

/-- Embedding of `EmailTicketParser.decode_email_header` (lines 77-83):
decode each fragment produced by `decode_header` and join the results with
single spaces.  `none` models a raised exception (unknown charset or
undecodable bytes). -/
def decode_email_header (lib : ExternalLib) (header : String) : Option String :=
  ((lib.decodeHeader header).mapM (decodeFragment lib)).map (String.intercalate " ")

/-- UTF-8 encoding of a single character (scalar values only, as in `Char`). -/
def utf8EncodeChar (c : Char) : List Nat :=
  let n := c.toNat
  if n < 0x80 then [n]
  else if n < 0x800 then [0xC0 + n / 0x40, 0x80 + n % 0x40]
  else if n < 0x10000 then
    [0xE0 + n / 0x1000, 0x80 + (n / 0x40) % 0x40, 0x80 + n % 0x40]
  else
    [0xF0 + n / 0x40000, 0x80 + (n / 0x1000) % 0x40, 0x80 + (n / 0x40) % 0x40,
     0x80 + n % 0x40]

/-- UTF-8 encoding of a string. -/
def utf8Encode (s : String) : List Nat :=
  (s.toList.map utf8EncodeChar).flatten

/-- Is `b` a UTF-8 continuation byte? -/
def isCont (b : Nat) : Bool := 0x80 ≤ b && b < 0xC0

/-- Is `n` a Unicode scalar value (excluding surrogates)? -/
def validScalar (n : Nat) : Bool := n < 0xD800 || (0xDFFF < n && n ≤ 0x10FFFF)

/-- Strict UTF-8 decoder on byte lists, rejecting truncated sequences,
stray continuation bytes, overlong encodings, surrogates and values past
U+10FFFF — the behaviour of Python's  bytes.decode()  with its default
'utf-8' codec and strict error handling. -/
def utf8DecodeAux : List Nat → Option (List Char)
  | [] => some []
  | b :: rest =>
    if b < 0x80 then (utf8DecodeAux rest).map (fun l => Char.ofNat b :: l)
    else if b < 0xC2 then none
    else if b < 0xE0 then
      match rest with
      | b2 :: r =>
        if isCont b2 then
          (utf8DecodeAux r).map (fun l => Char.ofNat ((b - 0xC0) * 0x40 + (b2 - 0x80)) :: l)
        else none
      | [] => none
    else if b < 0xF0 then
      match rest with
      | b2 :: b3 :: r =>
        let n := (b - 0xE0) * 0x1000 + (b2 - 0x80) * 0x40 + (b3 - 0x80)
        if isCont b2 && isCont b3 && decide (0x800 ≤ n) && validScalar n then
          (utf8DecodeAux r).map (fun l => Char.ofNat n :: l)
        else none
      | _ => none
    else if b < 0xF5 then
      match rest with
      | b2 :: b3 :: b4 :: r =>
        let n := (b - 0xF0) * 0x40000 + (b2 - 0x80) * 0x1000 +
                 (b3 - 0x80) * 0x40 + (b4 - 0x80)
        if isCont b2 && isCont b3 && isCont b4 &&
            decide (0x10000 ≤ n) && decide (n ≤ 0x10FFFF) then
          (utf8DecodeAux r).map (fun l => Char.ofNat n :: l)
        else none
      | _ => none
    else none

/-- Strict UTF-8 decoding to a string (Python  bytes.decode() ). -/
def utf8Decode (bs : List Nat) : Option String :=
  (utf8DecodeAux bs).map List.asString

/-- Latin-1 (ISO 8859-1) encoder: each character below U+0100 is its own
byte. -/
def latin1Enc (s : String) : List Nat :=
  s.toList.map Char.toNat

/-- Latin-1 decoder: every byte below 0x100 maps to the character with the
same code point. -/
def latin1Dec (bs : List Nat) : Option String :=
  if bs.all (fun b => b < 0x100) then some (bs.map Char.ofNat).asString else none

/-- The 'utf-8' entry of the codec registry. -/
def utf8Charset : Charset := ⟨utf8Encode, utf8Decode⟩

/-- The 'latin-1' / 'iso-8859-1' entry of the codec registry. -/
def latin1Charset : Charset := ⟨latin1Enc, latin1Dec⟩

/-- A concrete model of the external library for witnesses: headers carry no
RFC 2047 encoded words (`decode_header` returns the raw text as one plain
fragment, as it does for ASCII headers), and the codec registry knows
'utf-8' and 'latin-1'. -/
def lib0 : ExternalLib :=
  ⟨fun s => [.text s],
   fun nm =>
     if nm = "utf-8" then some utf8Charset
     else if nm = "latin-1" then some latin1Charset
     else none⟩

/-- C8: decoding an RFC 2047 encoded header recovers the original string
regardless of the charset used to encode it: for any library state in which
`decode_header` parses the encoded header into the single encoded word
carrying `c.enc s` under a charset name that resolves to `c`, and any
charset whose codec round-trips on `s`, `decode_email_header` returns `s`. -/
theorem header_decode_roundtrip (lib : ExternalLib) (nm : String) (c : Charset)
    (s encoded : String)
    (hreg : lib.lookupCharset nm = some c)
    (hrt : c.dec (c.enc s) = some s)
    (hparse : lib.decodeHeader encoded = [.bytes (c.enc s) (some nm)]) :
    decode_email_header lib encoded = some s := by
  unfold decode_email_header
  rw [hparse]
  simp [List.mapM, List.mapM.loop, decodeFragment, hreg, hrt, String.intercalate,
    String.intercalate.go]

/-- A toy charset whose bytes are character code points, used to witness the
round-trip theorem concretely. -/
def charCodeCharset : Charset :=
  ⟨fun s => s.toList.map Char.toNat, fun l => some (l.map Char.ofNat).asString⟩

/-- A concrete library state in which every header parses as one encoded
word in charset "x-codes" holding the bytes of "hi". -/
def libRoundtrip : ExternalLib :=
  ⟨fun _ => [.bytes (charCodeCharset.enc "hi") (some "x-codes")],
   fun _ => some charCodeCharset⟩

/-- Witness for C8 at a concrete charset, string and header. -/
theorem header_decode_roundtrip_witness :
    decode_email_header libRoundtrip "=?x-codes?Q?hi?=" = some "hi" :=
  header_decode_roundtrip libRoundtrip "x-codes" charCodeCharset "hi"
    "=?x-codes?Q?hi?=" rfl (by decide) rfl

/-- Modelled behaviour of the external standard-library function
`email.utils.parseaddr(...)[1]`: the addr-spec of an address header — the
text between the first pair of angle brackets when one is present, otherwise
the whole string with surrounding whitespace removed (the forms this
repository's inputs take). -/
def parseaddrEmail (s : String) : String :=
  if s.toList.contains '<' then
    ⟨((s.toList.dropWhile (fun c => c ≠ '<')).drop 1).takeWhile (fun c => c ≠ '>')⟩
  else pyStrip pyIsSpace s

/-- The sender object of a ticket payload. -/
structure Sender where
  first_name : String
  last_name : String
  email : String
deriving DecidableEq

/-- The ticket payload the script POSTs to the webhook (lines 116-125). -/
structure TicketPayload where
  title : String
  content : String
  priority : String
  sender : Sender
deriving DecidableEq

/-- One MIME part of a multipart message, as the walk over the parsed
message exposes it: its content type, the charset declared in its headers
(which the script never reads), and its payload bytes after
transfer-decoding, i.e. `part.get_payload(decode=True)`. -/
structure MsgPart where
  contentType : String
  charsetDecl : Option String
  payload : List Nat
deriving DecidableEq

/-- The body of a parsed message: a single payload (with its declared
charset, unread by the script) or a list of parts in walk order. -/
inductive MsgBody where
  | single (charsetDecl : Option String) (payload : List Nat)
  | multipart (parts : List MsgPart)
deriving DecidableEq

/-- A parsed email message at the granularity the script reads it: the raw
subject header (absent when the message has none), the raw from header, and
the body. -/
structure Msg where
  subject : Option String
  fromHdr : String
  body : MsgBody
deriving DecidableEq

/-- Python's  msg["subject"] or "No Subject" : the raw subject when present
and non-empty (a missing header is None and an empty string is falsy),
otherwise the placeholder. -/
def subjectOrDefault (s : Option String) : String :=
  match s with
  | none => "No Subject"
  | some t => if t = "" then "No Subject" else t

/-- Body extraction of `create_ticket_payload` (lines 106-114): for a
multipart message the first text/plain part's payload decoded with
bytes.decode() — strict UTF-8 — and the empty string when no text/plain
part exists; otherwise the single payload decoded the same way.  `none`
models a raised UnicodeDecodeError. -/
def extractBody (msg : Msg) : Option String :=
  match msg.body with
  | .multipart parts =>
    match parts.find? (fun p => p.contentType == "text/plain") with
    | some p => utf8Decode p.payload
    | none => some ""
  | .single _ bs => utf8Decode bs

/-- Embedding of `EmailTicketParser.create_ticket_payload` (lines 98-125).
`none` models an exception escaping the method (header or body decode
failure), which the per-message loop catches. -/
def create_ticket_payload (lib : ExternalLib) (msg : Msg) : Option TicketPayload := do
  let subject ← decode_email_header lib (subjectOrDefault msg.subject)
  let from_header ← decode_email_header lib msg.fromHdr
  let sender_email := parseaddrEmail from_header
  let (first_name, last_name) := parse_sender_name from_header
  let body ← extractBody msg
  pure ⟨subject, body, "Normal", ⟨first_name, last_name, sender_email⟩⟩

/-- Modelled from the spec: body extraction as §4.2.e words it — the chosen
part is "decoded using its declared or default character encoding", i.e.
the charset declared on the part (defaulting to utf-8) is looked up in the
codec registry and used to decode the payload.  Stated only to compare with
the code's `extractBody`. -/
def specDeclaredBody (lib : ExternalLib) (msg : Msg) : Option String :=
  match msg.body with
  | .multipart parts =>
    match parts.find? (fun p => p.contentType == "text/plain") with
    | some p => (lib.lookupCharset (p.charsetDecl.getD "utf-8")).bind fun c => c.dec p.payload
    | none => some ""
  | .single cs bs => (lib.lookupCharset (cs.getD "utf-8")).bind fun c => c.dec bs

/-- A multipart message whose text/plain part declares charset latin-1 and
carries the bytes 0xC3 0xA9 ("é" in UTF-8, "Ã©" in latin-1). -/
def msgLatin : Msg :=
  ⟨some "S", "A B <a@b.c>", .multipart [⟨"text/plain", some "latin-1", [0xC3, 0xA9]⟩]⟩

/-- Counterexample to C7's decoding clause: the script decodes the body with
bytes.decode() — always UTF-8 — so on a part declaring charset latin-1 the
produced content ("é") differs from the content decoded with the declared
charset ("Ã©") that the claim describes. -/
theorem content_ignores_declared_charset :
    (create_ticket_payload lib0 msgLatin).map TicketPayload.content = some "é" ∧
    specDeclaredBody lib0 msgLatin = some "Ã©" ∧
    (create_ticket_payload lib0 msgLatin).map TicketPayload.content ≠
      specDeclaredBody lib0 msgLatin := by
  refine ⟨by decide, by decide, by decide⟩

/-- The §8 scenario message: subject "Help!", body "I need help", sender
"Bob Jones <bob@example.com>". -/
def msgBob : Msg :=
  ⟨some "Help!", "Bob Jones <bob@example.com>",
   .single none [73, 32, 110, 101, 101, 100, 32, 104, 101, 108, 112]⟩

/-- The payload the §8 scenario derives. -/
def payBob : TicketPayload :=
  ⟨"Help!", "I need help", "Normal", ⟨"Bob", "Jones", "bob@example.com"⟩⟩

/-- C7 (amended): whenever `create_ticket_payload` succeeds, its content is
the first text/plain part for a multipart message (empty when none exists)
and the single body otherwise, decoded strictly as UTF-8 — the default
encoding, irrespective of any declared charset; the title comes from the
placeholder "No Subject" when the subject header is absent; the priority is
the constant "Normal"; and the §8 scenario message yields exactly the
payload of the spec. -/
theorem ticket_payload_shape (lib : ExternalLib) (msg : Msg) (pay : TicketPayload)
    (h : create_ticket_payload lib msg = some pay) :
    extractBody msg = some pay.content ∧
    (∀ cs bs, msg.body = .single cs bs → utf8Decode bs = some pay.content) ∧
    (∀ parts, msg.body = .multipart parts →
      parts.find? (fun p => p.contentType == "text/plain") = none →
      pay.content = "") ∧
    (∀ parts q, msg.body = .multipart parts →
      parts.find? (fun p => p.contentType == "text/plain") = some q →
      utf8Decode q.payload = some pay.content) ∧
    (msg.subject = none → decode_email_header lib "No Subject" = some pay.title) ∧
    pay.priority = "Normal" ∧
    create_ticket_payload lib0 msgBob = some payBob := by
  simp only [create_ticket_payload, Option.bind_eq_bind, bind, Option.bind] at h
  cases hs : decode_email_header lib (subjectOrDefault msg.subject) with
  | none => rw [hs] at h; exact absurd h (by simp)
  | some subj =>
    rw [hs] at h
    cases hf : decode_email_header lib msg.fromHdr with
    | none => rw [hf] at h; exact absurd h (by simp)
    | some fromh =>
      rw [hf] at h
      cases hb : extractBody msg with
      | none => rw [hb] at h; exact absurd h (by simp)
      | some body =>
        rw [hb] at h
        simp only [pure, Option.some_inj] at h
        subst h
        refine ⟨by simp [hb], ?_, ?_, ?_, ?_, by simp, by decide⟩
        · intro cs bs hbody
          have h2 : extractBody msg = utf8Decode bs := by simp [extractBody, hbody]
          rw [h2] at hb
          simpa using hb
        · intro parts hbody hfind
          have h2 : extractBody msg = some "" := by simp [extractBody, hbody, hfind]
          rw [hb] at h2
          have h3 : body = "" := by simpa using h2
          simp [h3]
        · intro parts q hbody hfind
          have h2 : extractBody msg = utf8Decode q.payload := by
            simp [extractBody, hbody, hfind]
          rw [h2] at hb
          simpa using hb
        · intro hnone
          rw [hnone] at hs
          simpa [subjectOrDefault] using hs

/-- Witness for C7's amended theorem at the §8 scenario message. -/
theorem ticket_payload_shape_witness :
    extractBody msgBob = some "I need help" ∧
    payBob.priority = "Normal" ∧
    create_ticket_payload lib0 msgBob = some payBob := by
  have h := ticket_payload_shape lib0 msgBob payBob (by decide)
  exact ⟨h.1, h.2.2.2.2.2.1, h.2.2.2.2.2.2⟩

/-- Embedding of `_wait_for_connection`'s  while self._lock  loop (lines
26-33): a second acquisition arriving while the flag holds this value must
wait exactly when the value is true. -/
def wait_for_connection_blocks (lock : Bool) : Bool := lock

/-- The observable trace of one `imap_connection` acquisition:
how many connection attempts ran, the back-off waits slept between failed
attempts (`random.uniform(1,3) * retry_count`), the value of the `_lock`
flag at the start of each attempt, the flag's value after the context
exits, and whether an attempt succeeded (`yield` was reached). -/
structure ConnTrace where
  attempts : Nat
  waits : List ℚ
  lockAtStart : List Bool
  finalLock : Bool
  success : Bool
deriving DecidableEq

/-- Embedding of the retry loop of `imap_connection` (lines 41-75).
`results k` tells whether connection attempt `k` (1-based) succeeds;
`jitter k` is the value `random.uniform(1, 3)` drawn after the k-th failed
attempt.  The `finally` clause of the loop body runs at the end of every
iteration — after a handled OSError as well as after the with-body and
`break` — and always sets the lock flag to false; the recursion therefore
continues with `lock = false` after the first failed attempt. -/
def connectLoop (results : Nat → Bool) (jitter : Nat → ℚ) (maxRetries : Nat) :
    Nat → Nat → Bool → Nat → List ℚ → List Bool → ConnTrace
  | 0, _, lock, attempts, waits, locks =>
    ⟨attempts, waits, locks, lock, false⟩
  | fuel + 1, retryCount, lock, attempts, waits, locks =>
    if retryCount < maxRetries then
      let locks := locks ++ [lock]
      if results (retryCount + 1) then
        ⟨attempts + 1, waits, locks, false, true⟩
      else
        let rc := retryCount + 1
        if maxRetries ≤ rc then
          ⟨attempts + 1, waits, locks, false, false⟩
        else
          connectLoop results jitter maxRetries fuel rc false (attempts + 1)
            (waits ++ [jitter rc * (rc : ℚ)]) locks
    else ⟨attempts, waits, locks, lock, false⟩

/-- Embedding of `imap_connection` (lines 35-75): after
`_wait_for_connection`, set `_lock = True` and run the retry loop with
`max_retries` attempts. -/
def imap_connection (results : Nat → Bool) (jitter : Nat → ℚ)
    (maxRetries : Nat) : ConnTrace :=
  connectLoop results jitter maxRetries maxRetries 0 true 0 [] []

/-- The hard-coded blocked sender list (lines 18-21). -/
def blocked_senders : List String :=
  ["noreply@ingeniumstem.org", "Mailer-Daemon@mx1.mxfilter.net"]

/-- Embedding of `send_to_webhook` (lines 127-138): `webhook` gives the
HTTP status of POSTing the payload (`none` when the request raises); the
method returns whether that status is exactly 200, and false on an
exception. -/
def send_to_webhook (webhook : TicketPayload → Option Nat)
    (payload : TicketPayload) : Bool :=
  match webhook payload with
  | some code => code == 200
  | none => false

/-- The result of `imap.fetch(num, "(RFC822)")` for one message: a non-OK
status, an OK status with falsy data, or the parsed message. -/
inductive FetchResult where
  | notOk
  | noData
  | ok (msg : Msg)
deriving DecidableEq

/-- The external world one run of `process_emails` observes: the connection
attempt results and jitter draws, the status of `select("INBOX")` and
`search(None, "UNSEEN")`, the unseen message numbers the search returns,
the fetch result per message number, the webhook's HTTP status per payload,
and the header-decoding library state. -/
structure Env where
  connResults : Nat → Bool
  jitter : Nat → ℚ
  selectOk : Bool
  searchOk : Bool
  unseen : List Nat
  fetch : Nat → FetchResult
  webhook : TicketPayload → Option Nat
  lib : ExternalLib

/-- The outcome of the per-message loop body (lines 162-194) for one
message number. -/
inductive MsgOutcome where
  | fetchFailed
  | noData
  | blocked
  | processError
  | webhookFailed (p : TicketPayload)
  | created (p : TicketPayload)
deriving DecidableEq

/-- One iteration of the per-message loop: fetch, blocked-sender check on
the raw from header (line 178), payload construction, webhook submission,
and the store of the \Seen flag exactly when the webhook call returned
success. -/
def processMessage (env : Env) (num : Nat) : MsgOutcome :=
  match env.fetch num with
  | .notOk => .fetchFailed
  | .noData => .noData
  | .ok msg =>
    let sender_email := parseaddrEmail msg.fromHdr
    if sender_email ∈ blocked_senders then .blocked
    else
      match create_ticket_payload env.lib msg with
      | none => .processError
      | some p =>
        if send_to_webhook env.webhook p then .created p else .webhookFailed p

/-- What a whole run did, as observable from its effects and log lines. -/
inductive RunOutcome where
  | runError
  | selectFailed
  | searchFailed
  | noMessages
  | processed (results : List (Nat × MsgOutcome))
deriving DecidableEq

/-- The body of `process_emails`'s outer try (lines 143-194): connection
acquisition (an exhausted retry loop raises, modelled as `.error`), the
select and search status checks with their early returns, the empty-search
early return, and the per-message loop. -/
def processEmailsInner (env : Env) : Except String RunOutcome :=
  if (imap_connection env.connResults env.jitter 3).success then
    if env.selectOk then
      if env.searchOk then
        if env.unseen.isEmpty then .ok .noMessages
        else .ok (.processed (env.unseen.map fun n => (n, processMessage env n)))
      else .ok .searchFailed
    else .ok .selectFailed
  else .error "connection retries exhausted"

/-- Embedding of `process_emails` (lines 140-197): the outer
`except Exception` swallows every run-level exception, prints it, and
returns normally. -/
def process_emails (env : Env) : RunOutcome :=
  match processEmailsInner env with
  | .ok r => r
  | .error _ => .runError

/-- Embedding of `run_script` (lines 208-215): construct the processor, run
`process_emails`, and return the success JSON with HTTP status 200.  The
`except` branch returning 500 is unreachable because `process_emails`
catches every exception internally, which the model reflects by
`process_emails` being total. -/
def run_script (env : Env) : Nat × String :=
  let _ := process_emails env
  (200, "Execution finished")

/-- Did the outcome mark the message read (line 187)? -/
def isCreated : MsgOutcome → Bool
  | .created _ => true
  | _ => false

/-- The payload the loop POSTed to the webhook for this outcome, when a
call happened (lines 184-185 run for both the success and failure branch). -/
def payloadSent : MsgOutcome → Option TicketPayload
  | .created p => some p
  | .webhookFailed p => some p
  | _ => none

/-- Was the message skipped as a blocked sender (line 181)? -/
def isSkipped : MsgOutcome → Bool
  | .blocked => true
  | _ => false

/-- Did the message fail (fetch failure, missing data, a caught per-message
exception, or an unsuccessful webhook call)? -/
def isFailed : MsgOutcome → Bool
  | .fetchFailed => true
  | .noData => true
  | .processError => true
  | .webhookFailed _ => true
  | _ => false

/-- The per-message outcomes of a run ([] when the loop never ran). -/
def runResults (env : Env) : List (Nat × MsgOutcome) :=
  match process_emails env with
  | .processed rs => rs
  | _ => []

/-- The message numbers the run stored the \Seen flag on. -/
def markedRead (env : Env) : List Nat :=
  ((runResults env).filter fun e => isCreated e.2).map fun e => e.1

/-- The webhook POSTs the run issued, with the message each came from. -/
def webhookCalls (env : Env) : List (Nat × TicketPayload) :=
  (runResults env).filterMap fun e => (payloadSent e.2).map fun p => (e.1, p)

/-- The created/skipped/failed counts of a run.  The source's
`process_emails` returns None and reports these outcomes only through its
log lines; this aggregates the outcomes observable in that log. -/
structure RunResult where
  created : Nat
  skipped : Nat
  failed : Nat
deriving DecidableEq

/-- Aggregate counts of one run's per-message outcomes. -/
def runResult (env : Env) : RunResult :=
  ⟨((runResults env).filter fun e => isCreated e.2).length,
   ((runResults env).filter fun e => isSkipped e.2).length,
   ((runResults env).filter fun e => isFailed e.2).length⟩

lemma created_webhook_200 (env : Env) (n : Nat) (p : TicketPayload)
    (h : processMessage env n = .created p) : env.webhook p = some 200 := by
  unfold processMessage at h
  cases hf : env.fetch n <;> rw [hf] at h
  · simp at h
  · simp at h
  case ok msg =>
    by_cases hb : parseaddrEmail msg.fromHdr ∈ blocked_senders
    · simp [hb] at h
    · simp only [hb, if_false] at h
      cases hc : create_ticket_payload env.lib msg with
      | none => rw [hc] at h; simp at h
      | some q =>
        rw [hc] at h
        by_cases hw : send_to_webhook env.webhook q = true
        · simp only [hw, if_true] at h
          cases h
          unfold send_to_webhook at hw
          cases hwh : env.webhook p <;> rw [hwh] at hw
          · simp at hw
          · simp at hw
            rw [hw]
        · simp only [Bool.not_eq_true] at hw
          simp [hw] at h

lemma webhookFailed_not_200 (env : Env) (n : Nat) (p : TicketPayload)
    (h : processMessage env n = .webhookFailed p) : env.webhook p ≠ some 200 := by
  unfold processMessage at h
  cases hf : env.fetch n <;> rw [hf] at h
  · simp at h
  · simp at h
  case ok msg =>
    by_cases hb : parseaddrEmail msg.fromHdr ∈ blocked_senders
    · simp [hb] at h
    · simp only [hb, if_false] at h
      cases hc : create_ticket_payload env.lib msg with
      | none => rw [hc] at h; simp at h
      | some q =>
        rw [hc] at h
        by_cases hw : send_to_webhook env.webhook q = true
        · simp [hw] at h
        · simp only [Bool.not_eq_true] at hw
          simp only [hw, Bool.false_eq_true, if_false] at h
          cases h
          unfold send_to_webhook at hw
          cases hwh : env.webhook p <;> rw [hwh] at hw
          · simp
          · simp at hw
            simp [hwh, hw]

lemma runResults_eq (env : Env) :
    runResults env = [] ∨
    runResults env = env.unseen.map fun n => (n, processMessage env n) := by
  unfold runResults process_emails processEmailsInner
  by_cases h1 : (imap_connection env.connResults env.jitter 3).success = true
  · by_cases h2 : env.selectOk = true
    · by_cases h3 : env.searchOk = true
      · by_cases h4 : env.unseen.isEmpty = true
        · left; simp [h1, h2, h3, h4]
        · right; simp [h1, h2, h3, h4]
      · left; simp [h1, h2, h3]
    · left; simp [h1, h2]
  · left; simp [h1]

lemma mem_markedRead (env : Env) (n : Nat)
    (h : runResults env = env.unseen.map fun m => (m, processMessage env m)) :
    n ∈ markedRead env ↔ n ∈ env.unseen ∧ isCreated (processMessage env n) = true := by
  unfold markedRead
  rw [h]
  simp only [List.mem_map, List.mem_filter]
  constructor
  · rintro ⟨e, ⟨⟨m, hm, rfl⟩, hc⟩, rfl⟩
    exact ⟨hm, hc⟩
  · rintro ⟨hm, hc⟩
    exact ⟨(n, processMessage env n), ⟨⟨n, hm, rfl⟩, hc⟩, rfl⟩

lemma mem_webhookCalls (env : Env) (n : Nat) (p : TicketPayload)
    (h : runResults env = env.unseen.map fun m => (m, processMessage env m)) :
    (n, p) ∈ webhookCalls env ↔
      n ∈ env.unseen ∧ payloadSent (processMessage env n) = some p := by
  unfold webhookCalls
  rw [h]
  simp only [List.mem_filterMap, List.mem_map]
  constructor
  · rintro ⟨e, ⟨m, hm, rfl⟩, hp⟩
    rcases Option.map_eq_some'.mp hp with ⟨q, hq, hqe⟩
    cases hqe
    exact ⟨hm, hq⟩
  · rintro ⟨hm, hp⟩
    exact ⟨(n, processMessage env n), ⟨n, hm, rfl⟩,
      by rw [hp]; rfl⟩

/-- C1: a message is marked read (\Seen stored) exactly when the webhook
POST for its derived payload returned HTTP 200; no message is marked
without a successful call. -/
theorem marked_read_iff_webhook_200 (env : Env) (n : Nat) :
    n ∈ markedRead env ↔
      ∃ p, (n, p) ∈ webhookCalls env ∧ env.webhook p = some 200 := by
  rcases runResults_eq env with h | h
  · constructor
    · intro hm
      exact absurd hm (by simp [markedRead, h])
    · rintro ⟨p, hp, -⟩
      exact absurd hp (by simp [webhookCalls, h])
  · rw [mem_markedRead env n h]
    constructor
    · rintro ⟨hm, hc⟩
      cases hpm : processMessage env n <;> rw [hpm] at hc <;> simp [isCreated] at hc
      case created p =>
        refine ⟨p, ?_, created_webhook_200 env n p hpm⟩
        rw [mem_webhookCalls env n p h, hpm]
        exact ⟨hm, rfl⟩
    · rintro ⟨p, hp, hw⟩
      rw [mem_webhookCalls env n p h] at hp
      obtain ⟨hm, hps⟩ := hp
      refine ⟨hm, ?_⟩
      cases hpm : processMessage env n <;> rw [hpm] at hps <;>
        simp [payloadSent] at hps
      case webhookFailed q =>
        cases hps
        exact absurd hw (webhookFailed_not_200 env n p hpm)
      case created q =>
        cases hps
        rfl

/-- Unfolding of one iteration of the retry loop. -/
lemma connectLoop_succ (results : Nat → Bool) (jitter : Nat → ℚ)
    (maxRetries fuel retryCount : Nat) (lock : Bool) (attempts : Nat)
    (waits : List ℚ) (locks : List Bool) :
    connectLoop results jitter maxRetries (fuel + 1) retryCount lock attempts waits locks =
      if retryCount < maxRetries then
        if results (retryCount + 1) then
          ⟨attempts + 1, waits, locks ++ [lock], false, true⟩
        else if maxRetries ≤ retryCount + 1 then
          ⟨attempts + 1, waits, locks ++ [lock], false, false⟩
        else
          connectLoop results jitter maxRetries fuel (retryCount + 1) false (attempts + 1)
            (waits ++ [jitter (retryCount + 1) * ((retryCount + 1 : Nat) : ℚ)])
            (locks ++ [lock])
      else ⟨attempts, waits, locks, lock, false⟩ := rfl

/-- An environment whose every connection attempt fails: the retry loop
exhausts its three attempts and raises. -/
def envConnFail : Env :=
  ⟨fun _ => false, fun _ => 2, true, true, [], fun _ => .notOk, fun _ => none, lib0⟩

/-- Counterexample to C2: a run whose connection retries are exhausted is a
run-level failure (the context manager raises, `.error` inside
`process_emails`'s try), yet the HTTP trigger returns status 200, not 500,
because `process_emails` catches and merely logs every exception. -/
theorem run_level_failure_returns_200 :
    processEmailsInner envConnFail = .error "connection retries exhausted" ∧
    (run_script envConnFail).1 = 200 ∧
    (run_script envConnFail).1 ≠ 500 := by
  refine ⟨rfl, rfl, by decide⟩

/-- C2 (amended): run-level failures are caught inside `process_emails` —
an exhausted connection retry loop is swallowed and logged, selection and
search failures are early returns — so the HTTP trigger always answers 200;
and when the run does reach the per-message loop, every unseen message gets
its own outcome (message-level failures never propagate past the loop). -/
theorem run_failures_swallowed (env : Env) :
    (run_script env).1 = 200 ∧
    ((imap_connection env.connResults env.jitter 3).success = false →
      process_emails env = .runError) ∧
    ((imap_connection env.connResults env.jitter 3).success = true →
      env.selectOk = true → env.searchOk = true → env.unseen ≠ [] →
      process_emails env =
        .processed (env.unseen.map fun n => (n, processMessage env n))) := by
  refine ⟨rfl, ?_, ?_⟩
  · intro h
    unfold process_emails processEmailsInner
    simp [h]
  · intro h1 h2 h3 h4
    have h5 : env.unseen.isEmpty = false := by
      cases hu : env.unseen with
      | nil => exact absurd hu h4
      | cons a l => simp
    unfold process_emails processEmailsInner
    simp [h1, h2, h3, h5]

/-- Witness for C2's amended theorem: the exhausted-retries environment. -/
theorem run_failures_swallowed_witness :
    (run_script envConnFail).1 = 200 ∧ process_emails envConnFail = .runError :=
  ⟨(run_failures_swallowed envConnFail).1,
   (run_failures_swallowed envConnFail).2.1 rfl⟩

/-- An environment that connects at once and finds no unseen messages. -/
def envEmpty : Env :=
  ⟨fun _ => true, fun _ => 2, true, true, [], fun _ => .notOk, fun _ => none, lib0⟩

/-- C3: a run against a mailbox with zero unseen messages is a no-op: the
run takes the empty-search early return, its created/skipped/failed counts
are all zero, nothing is marked read and no webhook call is made. -/
theorem empty_mailbox_noop (env : Env)
    (hconn : (imap_connection env.connResults env.jitter 3).success = true)
    (hsel : env.selectOk = true) (hsea : env.searchOk = true)
    (hempty : env.unseen = []) :
    process_emails env = .noMessages ∧ runResult env = ⟨0, 0, 0⟩ ∧
    markedRead env = [] ∧ webhookCalls env = [] := by
  have hrun : process_emails env = .noMessages := by
    unfold process_emails processEmailsInner
    simp [hconn, hsel, hsea, hempty]
  have hres : runResults env = [] := by
    unfold runResults
    rw [hrun]
  exact ⟨hrun, by unfold runResult; rw [hres]; rfl,
    by unfold markedRead; rw [hres]; rfl,
    by unfold webhookCalls; rw [hres]; rfl⟩

/-- Witness for C3 at a concrete empty mailbox. -/
theorem empty_mailbox_noop_witness :
    process_emails envEmpty = .noMessages ∧ runResult envEmpty = ⟨0, 0, 0⟩ ∧
    markedRead envEmpty = [] ∧ webhookCalls envEmpty = [] :=
  empty_mailbox_noop envEmpty rfl rfl rfl rfl

/-- C4: a fetched message whose sender address (parsed from the raw from
header) is in the blocked list is skipped: its outcome is `.blocked`, no
webhook call carries its number, and it is never marked read — so no
payload is built and the message stays unread. -/
theorem blocked_sender_skipped (env : Env) (n : Nat) (msg : Msg)
    (hf : env.fetch n = .ok msg)
    (hb : parseaddrEmail msg.fromHdr ∈ blocked_senders) :
    processMessage env n = .blocked ∧
    (∀ p : TicketPayload, (n, p) ∉ webhookCalls env) ∧
    n ∉ markedRead env := by
  have hpm : processMessage env n = .blocked := by
    unfold processMessage
    rw [hf]
    simp [hb]
  refine ⟨hpm, ?_, ?_⟩
  · intro p hp
    rcases runResults_eq env with h | h
    · simp [webhookCalls, h] at hp
    · rw [mem_webhookCalls env n p h, hpm] at hp
      simp [payloadSent] at hp
  · intro hmk
    rcases runResults_eq env with h | h
    · simp [markedRead, h] at hmk
    · rw [mem_markedRead env n h, hpm] at hmk
      simp [isCreated] at hmk

/-- A message from the first blocked sender. -/
def msgBlocked : Msg :=
  ⟨some "x", "No Reply <noreply@ingeniumstem.org>", .single none []⟩

/-- An environment whose only unseen message comes from a blocked sender. -/
def envBlocked : Env :=
  ⟨fun _ => true, fun _ => 2, true, true, [1], fun _ => .ok msgBlocked,
   fun _ => some 200, lib0⟩

/-- Witness for C4 at a concrete blocked-sender message. -/
theorem blocked_sender_skipped_witness :
    processMessage envBlocked 1 = .blocked ∧ 1 ∉ markedRead envBlocked :=
  ⟨(blocked_sender_skipped envBlocked 1 msgBlocked rfl (by decide)).1,
   (blocked_sender_skipped envBlocked 1 msgBlocked rfl (by decide)).2.2⟩

/-- C5: with two transient failures followed by a success, acquisition makes
exactly 3 connection attempts and succeeds, the two back-off waits are
`jitter 1 * 1` and `jitter 2 * 2` (uniform jitter times the failed attempt's
index), and when every jitter draw is at least the lower bound 1 each wait
is at least 1 times that index. -/
theorem connection_retry_trace (results : Nat → Bool) (jitter : Nat → ℚ)
    (h1 : results 1 = false) (h2 : results 2 = false) (h3 : results 3 = true)
    (hj : ∀ k, 1 ≤ jitter k) :
    (imap_connection results jitter 3).attempts = 3 ∧
    (imap_connection results jitter 3).success = true ∧
    (imap_connection results jitter 3).waits =
      [jitter 1 * (1 : ℚ), jitter 2 * (2 : ℚ)] ∧
    (1 : ℚ) * 1 ≤ jitter 1 * 1 ∧ (1 : ℚ) * 2 ≤ jitter 2 * 2 := by
  have ht : imap_connection results jitter 3 =
      ⟨3, [jitter 1 * (1 : ℚ), jitter 2 * (2 : ℚ)], [true, false, false],
        false, true⟩ := by
    simp [imap_connection, connectLoop_succ, h1, h2, h3]
  refine ⟨by rw [ht], by rw [ht], by rw [ht], ?_, ?_⟩
  · exact mul_le_mul_of_nonneg_right (hj 1) (by norm_num)
  · exact mul_le_mul_of_nonneg_right (hj 2) (by norm_num)

/-- Attempt results with two failures then a success. -/
def resThird : Nat → Bool := fun k => k == 3

/-- Witness for C5 at concrete attempt results and jitter draws. -/
theorem connection_retry_trace_witness :
    (imap_connection resThird (fun _ => 2) 3).attempts = 3 ∧
    (imap_connection resThird (fun _ => 2) 3).success = true ∧
    (imap_connection resThird (fun _ => 2) 3).waits = [(2 : ℚ) * 1, (2 : ℚ) * 2] ∧
    (1 : ℚ) * 1 ≤ (2 : ℚ) * 1 ∧ (1 : ℚ) * 2 ≤ (2 : ℚ) * 2 :=
  connection_retry_trace resThird (fun _ => 2) rfl rfl rfl fun _ => by norm_num

/-- Once the loop continues with the lock already cleared, every later
attempt starts with the flag false and the final flag is false: the
recorded lock values only extend the accumulator with `false` entries. -/
lemma connectLoop_lock_false (results : Nat → Bool) (jitter : Nat → ℚ)
    (maxR : Nat) :
    ∀ (fuel rc attempts : Nat) (waits : List ℚ) (locks : List Bool),
      ∃ extra : List Bool,
        (connectLoop results jitter maxR fuel rc false attempts waits locks).lockAtStart =
          locks ++ extra ∧
        (∀ b ∈ extra, b = false) ∧
        (connectLoop results jitter maxR fuel rc false attempts waits locks).finalLock =
          false := by
  intro fuel
  induction fuel with
  | zero =>
    intro rc attempts waits locks
    exact ⟨[], by simp [connectLoop], by simp, by simp [connectLoop]⟩
  | succ fuel ih =>
    intro rc attempts waits locks
    rw [connectLoop_succ]
    by_cases h : rc < maxR
    · simp only [h, if_true]
      by_cases hr : results (rc + 1) = true
      · simp only [hr, if_true]
        exact ⟨[false], by simp, by simp, by simp⟩
      · simp only [hr, Bool.false_eq_true, if_false]
        by_cases hM : maxR ≤ rc + 1
        · simp only [hM, if_true]
          exact ⟨[false], by simp, by simp, by simp⟩
        · simp only [hM, if_false]
          obtain ⟨extra, he, hall, hfin⟩ :=
            ih (rc + 1) (attempts + 1)
              (waits ++ [jitter (rc + 1) * ((rc + 1 : Nat) : ℚ)]) (locks ++ [false])
          refine ⟨false :: extra, ?_, ?_, hfin⟩
          · rw [he, List.append_assoc]
            rfl
          · intro b hb
            rcases List.mem_cons.mp hb with h1 | h1
            · exact h1
            · exact hall b h1
    · simp only [h, if_false]
      exact ⟨[], by simp, by simp, by simp⟩

/-- C9 (amended): the lock flag is set when acquisition starts and is held
during the first connection attempt, but the loop's `finally` clause clears
it at the end of every iteration, so each retry attempt after the first
starts with the flag already false (a second acquisition arriving then
would not wait), and the flag is false after the context exits. -/
theorem lock_held_only_first_attempt (results : Nat → Bool) (jitter : Nat → ℚ)
    (m : Nat) (hm : 0 < m) :
    (imap_connection results jitter m).lockAtStart.head? = some true ∧
    (∀ b ∈ (imap_connection results jitter m).lockAtStart.tail, b = false) ∧
    (imap_connection results jitter m).finalLock = false := by
  obtain ⟨m', rfl⟩ : ∃ m', m = m' + 1 := ⟨m - 1, (Nat.succ_pred_eq_of_pos hm).symm⟩
  unfold imap_connection
  rw [connectLoop_succ]
  have h0 : 0 < m' + 1 := Nat.succ_pos m'
  simp only [h0, if_true]
  by_cases hr : results (0 + 1) = true
  · simp only [hr, if_true]
    exact ⟨by simp, by simp, by simp⟩
  · simp only [hr, Bool.false_eq_true, if_false]
    by_cases hM : m' + 1 ≤ 0 + 1
    · simp only [hM, if_true]
      exact ⟨by simp, by simp, by simp⟩
    · simp only [hM, if_false]
      obtain ⟨extra, he, hall, hfin⟩ :=
        connectLoop_lock_false results jitter (m' + 1) m' (0 + 1) (0 + 1)
          ([] ++ [jitter (0 + 1) * ((0 + 1 : Nat) : ℚ)]) ([] ++ [true])
      rw [he]
      refine ⟨rfl, ?_, hfin⟩

      intro b hb
      exact hall b hb

/-- Witness for C9's amended theorem. -/
theorem lock_held_only_first_attempt_witness :
    (imap_connection (fun _ => false) (fun _ => 2) 3).lockAtStart.head? = some true ∧
    (imap_connection (fun _ => false) (fun _ => 2) 3).finalLock = false :=
  ⟨(lock_held_only_first_attempt (fun _ => false) (fun _ => 2) 3 (by decide)).1,
   (lock_held_only_first_attempt (fun _ => false) (fun _ => 2) 3 (by decide)).2.2⟩

/-- Attempt results with one transient failure then a success. -/
def resSecond : Nat → Bool := fun k => k == 2

/-- Counterexample to C9: with one transient failure then a success, the
acquisition is still in progress at the start of attempt 2, yet the lock
flag has already been cleared by the previous iteration's `finally` — a
second acquisition's `_wait_for_connection` would not block.  The claim
"never: acquisition in progress and lock flag cleared" is false here. -/
theorem lock_cleared_during_retry :
    (imap_connection resSecond (fun _ => 2) 3).success = true ∧
    (imap_connection resSecond (fun _ => 2) 3).lockAtStart = [true, false] ∧
    wait_for_connection_blocks
      ((imap_connection resSecond (fun _ => 2) 3).lockAtStart.getD 1 true) = false ∧
    ¬ (∀ b ∈ (imap_connection resSecond (fun _ => 2) 3).lockAtStart, b = true) := by
  refine ⟨rfl, rfl, rfl, ?_⟩
  intro hall
  have hf := hall false (by
    rw [show (imap_connection resSecond (fun _ => 2) 3).lockAtStart = [true, false] from rfl]
    simp)
  simp at hf

/-- When payload construction succeeds its content is the extracted body. -/
lemma create_payload_content (lib : ExternalLib) (msg : Msg) (pay : TicketPayload)
    (h : create_ticket_payload lib msg = some pay) :
    extractBody msg = some pay.content := by
  simp only [create_ticket_payload, Option.bind_eq_bind, bind, Option.bind] at h
  cases hs : decode_email_header lib (subjectOrDefault msg.subject) with
  | none => rw [hs] at h; exact absurd h (by simp)
  | some subj =>
    rw [hs] at h
    cases hf : decode_email_header lib msg.fromHdr with
    | none => rw [hf] at h; exact absurd h (by simp)
    | some fromh =>
      rw [hf] at h
      cases hb : extractBody msg with
      | none => rw [hb] at h; exact absurd h (by simp)
      | some body =>
        rw [hb] at h
        simp only [pure, Option.some_inj] at h
        subst h
        simp [hb]

/-- C10: a multipart message with no text/plain part still yields a payload
— with empty content — and that payload is submitted to the webhook for its
message number (the message is not skipped). -/
theorem no_plain_part_still_submitted (env : Env) (n : Nat) (msg : Msg)
    (parts : List MsgPart) (pay : TicketPayload)
    (hconn : (imap_connection env.connResults env.jitter 3).success = true)
    (hsel : env.selectOk = true) (hsea : env.searchOk = true)
    (hn : n ∈ env.unseen)
    (hf : env.fetch n = .ok msg)
    (hb : parseaddrEmail msg.fromHdr ∉ blocked_senders)
    (hbody : msg.body = .multipart parts)
    (hfind : parts.find? (fun p => p.contentType == "text/plain") = none)
    (hcp : create_ticket_payload env.lib msg = some pay) :
    (n, pay) ∈ webhookCalls env ∧ pay.content = "" := by
  have hx : extractBody msg = some pay.content := create_payload_content env.lib msg pay hcp
  have hx2 : extractBody msg = some "" := by simp [extractBody, hbody, hfind]
  rw [hx2] at hx
  have hcontent : pay.content = "" := by
    have := Option.some_inj.mp hx
    exact this.symm
  have hps : payloadSent (processMessage env n) = some pay := by
    unfold processMessage
    rw [hf]
    simp only [hb, if_false]
    rw [hcp]
    by_cases hw : send_to_webhook env.webhook pay = true
    · simp [hw, payloadSent]
    · simp only [Bool.not_eq_true] at hw
      simp [hw, payloadSent]
  have hne : env.unseen.isEmpty = false := by
    cases hu : env.unseen with
    | nil => rw [hu] at hn; exact absurd hn (by simp)
    | cons a l => simp
  have hrun : runResults env = env.unseen.map fun m => (m, processMessage env m) := by
    unfold runResults process_emails processEmailsInner
    simp [hconn, hsel, hsea, hne]
  exact ⟨(mem_webhookCalls env n pay hrun).mpr ⟨hn, hps⟩, hcontent⟩

/-- A multipart message with only a text/html part. -/
def msgNoPlain : Msg :=
  ⟨some "T", "Eve <eve@example.com>", .multipart [⟨"text/html", none, [60, 98, 62]⟩]⟩

/-- The payload derived from `msgNoPlain`. -/
def payNoPlain : TicketPayload :=
  ⟨"T", "", "Normal", ⟨"Eve", "", "eve@example.com"⟩⟩

/-- An environment whose single unseen message is `msgNoPlain`. -/
def envNoPlain : Env :=
  ⟨fun _ => true, fun _ => 2, true, true, [1], fun _ => .ok msgNoPlain,
   fun _ => some 200, lib0⟩

/-- Witness for C10 at a concrete multipart message without text/plain. -/
theorem no_plain_part_still_submitted_witness :
    (1, payNoPlain) ∈ webhookCalls envNoPlain ∧ payNoPlain.content = "" :=
  no_plain_part_still_submitted envNoPlain 1 msgNoPlain
    [⟨"text/html", none, [60, 98, 62]⟩] payNoPlain rfl rfl rfl (by decide)
    rfl (by decide) rfl rfl (by decide)

end EmailTicket
